import Mathlib

/-!
Shallow embedding of the plex-media-tagger repository (src/run_taggers.py and
src/rm_standup.py): the per-item decision pipeline of `run_scanner`, the AI
classifier adapter `get_ai_decision`, the Trakt reference-list cache and
retry loop (`load_trakt_cache`, `fetch_trakt_list_movies`), and the bulk
label reset `reset_all_tags`.  Strings model Python `str`; lowercasing is the
ASCII lowercasing of `Char.toLower`, matching Python `str.lower` on the ASCII
label/keyword strings the program uses.
-/

namespace PlexTagger

/- ### String helpers mirroring the Python primitives -/

/-- Python `s.lower()`: lowercase every character. -/
def lowerStr (s : String) : String := ⟨s.data.map Char.toLower⟩

/-- Whitespace predicate used by Python `str.strip()`. -/
def wsp (c : Char) : Bool := c.isWhitespace

/-- Python `s.strip()`: drop whitespace from both ends, modelled on char lists. -/
def trimL (l : List Char) : List Char :=
  ((l.dropWhile wsp).reverse.dropWhile wsp).reverse

/-- Python `pat in s` (substring test), modelled on char lists:
scan every suffix for `pat` as a prefix. -/
def hasSub : List Char → List Char → Bool
  | [], pat => pat.isEmpty
  | c :: cs, pat => pat.isPrefixOf (c :: cs) || hasSub cs pat

/-- The characters of the literal `"true"` searched for by the AI adapters. -/
def trueChars : List Char := "true".data

/- ### Data model -/

/-- A Plex movie as seen by `run_scanner`: title, summary, its current label
tags, and the external identifiers (`imdbID`, `tmdbId`) that exist on it. -/
structure Item where
  title : String
  summary : String
  labels : List String
  externalIds : List String
deriving DecidableEq

/-- One tagger entry of `config.json` as used by `run_scanner`:
`add_label`, `reject_label`, optional `pre_ai_keywords` (default `[]`) and
`pre_ai_keyword_threshold` (default 1).  The config name is the key of the
`tagger_configs` mapping. -/
structure TaggerConfig where
  name : String
  add_label : String
  reject_label : String
  pre_ai_keywords : List String
  pre_ai_keyword_threshold : Nat
deriving DecidableEq

/-- The outcome of the per-item decision pipeline (spec section 4.1). -/
inductive DecisionAct where
  | Skip : DecisionAct
  | RemoveAdd : String → DecisionAct
  | AddPositive : DecisionAct
  | AddNegative : DecisionAct
deriving DecidableEq

/-- A single label mutation requested from the external label store. -/
inductive Mut where
  | addLab : String → Mut
  | removeLab : String → Mut
deriving DecidableEq

/- ### The decision pipeline of run_scanner (src/run_taggers.py lines 185-251) -/

/-- The label presence test of `run_scanner` and `reset_all_tags`:
`labels = [l.tag.lower() for l in movie.labels]` followed by a verbatim
membership test `some_label in labels`.  The item labels are lowercased,
the configured label is compared as written. -/
def labelPresent (l : String) (labels : List String) : Bool :=
  decide (l ∈ labels.map lowerStr)

/-- Line 190: `if reject_label in labels and add_label in labels`. -/
def hasConflict (cfg : TaggerConfig) (item : Item) : Bool :=
  labelPresent cfg.reject_label item.labels && labelPresent cfg.add_label item.labels

/-- Line 195: `if add_label in labels or reject_label in labels`. -/
def alreadyDecided (cfg : TaggerConfig) (item : Item) : Bool :=
  labelPresent cfg.add_label item.labels || labelPresent cfg.reject_label item.labels

/-- Lines 201-210: `plex_movie_ids = {movie.title.lower()}` plus the imdb and
tmdb identifiers when present. -/
def plexIds (item : Item) : List String :=
  lowerStr item.title :: item.externalIds

/-- Lines 200-212: `if trakt_movie_identifiers:` and then
`if not trakt_movie_identifiers.isdisjoint(plex_movie_ids)`. -/
def traktMatch (trakt : List String) (item : Item) : Bool :=
  decide (trakt ≠ [] ∧ ∃ x, x ∈ plexIds item ∧ x ∈ trakt)

/-- Line 229: `search_text = (movie.title + " " + movie.summary).lower()`. -/
def searchText (item : Item) : List Char :=
  (lowerStr (item.title ++ " " ++ item.summary)).data

/-- Lines 228-232: count the configured keywords that occur (case-insensitively,
as substrings) in the search text. -/
def keywordMatches (cfg : TaggerConfig) (item : Item) : Nat :=
  (cfg.pre_ai_keywords.filter (fun k => hasSub (searchText item) (lowerStr k).data)).length

/-- Lines 223-234: the keyword pre-filter fires only when the tagger is named
`"sappy_christmas"`, keywords are configured, and the match count is below the
threshold. -/
def keywordReject (cfg : TaggerConfig) (item : Item) : Bool :=
  decide (cfg.name = "sappy_christmas" ∧ cfg.pre_ai_keywords ≠ [] ∧
    keywordMatches cfg item < cfg.pre_ai_keyword_threshold)

/-- The per-item decision of `run_scanner` (lines 185-251), with the reference
identifiers and the AI classifier's boolean answer as parameters.  Each
`continue` of the loop body is a terminal outcome. -/
def decideItem (cfg : TaggerConfig) (item : Item) (trakt : List String)
    (ai : Bool) : DecisionAct :=
  if hasConflict cfg item then .RemoveAdd cfg.add_label
  else if alreadyDecided cfg item then .Skip
  else if traktMatch trakt item then .AddPositive
  else if keywordReject cfg item then .AddNegative
  else if ai then .AddPositive else .AddNegative

/-- The label mutations one pass of the `run_scanner` loop issues for one item:
at most one, derived from the decision. -/
def runMuts (cfg : TaggerConfig) (item : Item) (trakt : List String)
    (ai : Bool) : List Mut :=
  match decideItem cfg item trakt ai with
  | .Skip => []
  | .RemoveAdd l => [.removeLab l]
  | .AddPositive => [.addLab cfg.add_label]
  | .AddNegative => [.addLab cfg.reject_label]

/-- Modelled from the spec: the external label store (plexapi, not part of
src/) compares labels case-insensitively on `removeLabel` and preserves case
on `addLabel` (spec section 6, "case preserved on write, compared
case-insensitively"). -/
def removeLabel (l : String) (labels : List String) : List String :=
  labels.filter (fun x => lowerStr x ≠ lowerStr l)

/-- Apply one requested mutation to an item's label set. -/
def applyMut (labels : List String) : Mut → List String
  | .addLab l => labels ++ [l]
  | .removeLab l => removeLabel l labels

/-- The item's label set after one pass of the `run_scanner` loop. -/
def runItem (cfg : TaggerConfig) (item : Item) (trakt : List String)
    (ai : Bool) : List String :=
  (runMuts cfg item trakt ai).foldl applyMut item.labels

/- ### AI classifier adapter (run_taggers.py lines 40-53, rm_standup.py 14-45) -/

/-- What the Ollama endpoint interaction can yield: an exception anywhere in
the request/JSON parsing (transport error, timeout, malformed response), a
JSON object without a `response` field, or the textual response. -/
inductive AiResponse where
  | failure : AiResponse
  | noField : AiResponse
  | text : String → AiResponse
deriving DecidableEq

/-- Line 49-50: `result = response.json().get('response', 'False').strip().lower()`
followed by `'true' in result`; any exception returns `False` (lines 51-53). -/
def get_ai_decision : AiResponse → Bool
  | .failure => false
  | .noField => hasSub ((trimL "False".data).map Char.toLower) trueChars
  | .text s => hasSub ((trimL s.data).map Char.toLower) trueChars

/- ### Trakt cache and fetch (run_taggers.py lines 55-145) -/

/-- The persisted cache file content, when present and well-formed.  Times are
modelled as integers in hours. -/
structure CacheEntry where
  timestamp : Int
  identifiers : List String
deriving DecidableEq

/-- Lines 55-71: return the cached identifiers when
`datetime.now() - cached_timestamp < timedelta(hours=cache_lifetime_hours)`,
else `None`; a missing or corrupt file (`entry = none`) is also `None`. -/
def load_trakt_cache (entry : Option CacheEntry) (now lifetime : Int) :
    Option (List String) :=
  match entry with
  | none => none
  | some e => if now - e.timestamp < lifetime then some e.identifiers else none

/-- The observable outcome of one HTTP attempt against the Trakt endpoint. -/
inductive FetchResult where
  | success : List String → FetchResult
  | http429 : Nat → FetchResult
  | httpError : FetchResult
  | netError : FetchResult
deriving DecidableEq

def isFetchSuccess : FetchResult → Bool
  | .success _ => true
  | _ => false

/-- Lines 105-145: `for i in range(retries)`; a successful attempt returns its
identifiers, every failure kind (429 rate limit, other HTTP error, request
error) sleeps and moves to the next attempt; exhausting the budget returns the
empty set. -/
def fetchLoop (attempts : Nat → FetchResult) : Nat → Nat → List String
  | _, 0 => []
  | i, Nat.succ n =>
    match attempts i with
    | .success ids => ids
    | .http429 _ => fetchLoop attempts (i + 1) n
    | .httpError => fetchLoop attempts (i + 1) n
    | .netError => fetchLoop attempts (i + 1) n

/-- Line 105: `retries = 3`. -/
def trakt_retries : Nat := 3

/-- Lines 86-145: no client id short-circuits to the empty set; a fresh cache
entry is returned without network activity; otherwise the retry loop runs.
The boolean records whether the network was used. -/
def fetch_trakt_list_movies (clientId : Option String) (entry : Option CacheEntry)
    (now lifetime : Int) (attempts : Nat → FetchResult) : List String × Bool :=
  match clientId with
  | none => ([], false)
  | some _ =>
    match load_trakt_cache entry now lifetime with
    | some ids => (ids, false)
    | none => (fetchLoop attempts 0 trakt_retries, true)

/- ### Reset (run_taggers.py lines 265-300) -/

/-- Lines 275-278: the union over all configs of `{add_label, reject_label}`. -/
def managedLabels (cfgs : List TaggerConfig) : List String :=
  cfgs.foldr (fun c acc => c.add_label :: c.reject_label :: acc) []

/-- Lines 284-295: the removals issued for one item — one `removeLabel` per
managed label that passes the presence test against the lowercased item
labels. -/
def resetMuts (managed : List String) (labels : List String) : List Mut :=
  (managed.filter (fun m => labelPresent m labels)).map Mut.removeLab

/-- The item's label set after one pass of `reset_all_tags`. -/
def resetItem (managed : List String) (labels : List String) : List String :=
  (resetMuts managed labels).foldl applyMut labels

/-- The whole library after `reset_all_tags`. -/
def resetLibrary (cfgs : List TaggerConfig) (lib : List Item) : List Item :=
  lib.map (fun it => { it with labels := resetItem (managedLabels cfgs) it.labels })

/- ### Concrete fixtures used by witnesses and counterexamples -/

def cfgW1 : TaggerConfig := ⟨"w1", "alpha", "beta", [], 1⟩

def itemW1 : Item := ⟨"T", "S", ["alpha", "beta"], []⟩

def cfgW3 : TaggerConfig := ⟨"any_tagger", "xmas", "not_xmas", ["keyword"], 5⟩

def itemW3 : Item := ⟨"The Santa List", "plot", [], ["tt0123"]⟩

def cfgX4 : TaggerConfig := ⟨"other_tagger", "xmas", "not_xmas", ["snow"], 1⟩

def itemX4 : Item := ⟨"Action Movie", "Explosions everywhere", [], []⟩

def cfgW4 : TaggerConfig := ⟨"sappy_christmas", "xmas", "not_xmas", ["snow", "christmas"], 2⟩

def itemW4 : Item := ⟨"Holiday Romance", "A couple falls in love in the snow", [], []⟩

def cfgX2 : TaggerConfig := ⟨"standup_mixed", "Standup", "verified_not_standup", [], 1⟩

def itemX2 : Item := ⟨"Some Movie", "plot", ["Standup", "verified_not_standup"], []⟩

def cfgW2 : TaggerConfig := ⟨"standup", "standup", "verified_not_standup", [], 1⟩

def itemW2 : Item := ⟨"Old Special", "plot", ["standup", "verified_not_standup"], []⟩

def cfgsX8 : List TaggerConfig := [⟨"mixed_reset", "Standup", "rejected_label", [], 1⟩]

def cfgsW8 : List TaggerConfig := [⟨"w8", "managed_a", "managed_b", [], 1⟩]

def cfgF9 : TaggerConfig := ⟨"standup_c9", "Standup", "standup_neg", [], 1⟩

def itemF9 : Item := ⟨"Live Show", "plot", ["standup"], []⟩

def cfgW10 : TaggerConfig := ⟨"w10", "pos_label", "neg_label", [], 1⟩

def itemW10 : Item := ⟨"A", "B", [], []⟩

/- ### Character-level facts about ASCII lowercasing -/

theorem char_eq_iff_toNat {c d : Char} : c = d ↔ c.toNat = d.toNat := by
  constructor
  · intro h; rw [h]
  · intro h; exact Char.ext (UInt32.toNat.inj h)

theorem char_toNat_toLower (c : Char) :
    (Char.toLower c).toNat =
      if 65 ≤ c.toNat ∧ c.toNat ≤ 90 then c.toNat + 32 else c.toNat := by
  unfold Char.toLower
  split
  next h =>
    rw [if_pos (by omega)]
    have hv : (c.toNat + 32).isValidChar := Or.inl (by omega)
    rw [Char.ofNat, dif_pos hv]
    rfl
  next h =>
    rw [if_neg (by omega)]

theorem char_toLower_idem (c : Char) : (Char.toLower c).toLower = Char.toLower c := by
  rw [char_eq_iff_toNat, char_toNat_toLower, char_toNat_toLower]
  by_cases hP : 65 ≤ c.toNat ∧ c.toNat ≤ 90
  · simp only [if_pos hP]
    rw [if_neg (by omega)]
  · simp only [if_neg hP]

theorem char_isWhitespace_toNat (c : Char) :
    c.isWhitespace = (decide (c.toNat = 32) || decide (c.toNat = 9) ||
      decide (c.toNat = 13) || decide (c.toNat = 10)) := by
  unfold Char.isWhitespace
  have h32 : (c = ' ') ↔ (c.toNat = 32) := char_eq_iff_toNat
  have h9 : (c = '\t') ↔ (c.toNat = 9) := char_eq_iff_toNat
  have h13 : (c = '\r') ↔ (c.toNat = 13) := char_eq_iff_toNat
  have h10 : (c = '\n') ↔ (c.toNat = 10) := char_eq_iff_toNat
  rw [decide_eq_decide.mpr h32, decide_eq_decide.mpr h9,
    decide_eq_decide.mpr h13, decide_eq_decide.mpr h10]

theorem wsp_toLower (c : Char) : wsp (Char.toLower c) = wsp c := by
  unfold wsp
  rw [char_isWhitespace_toNat, char_isWhitespace_toNat, char_toNat_toLower]
  split
  next h =>
    have e1 : ¬ (c.toNat + 32 = 32) := by omega
    have e2 : ¬ (c.toNat + 32 = 9) := by omega
    have e3 : ¬ (c.toNat + 32 = 13) := by omega
    have e4 : ¬ (c.toNat + 32 = 10) := by omega
    have f1 : ¬ (c.toNat = 32) := by omega
    have f2 : ¬ (c.toNat = 9) := by omega
    have f3 : ¬ (c.toNat = 13) := by omega
    have f4 : ¬ (c.toNat = 10) := by omega
    simp [e1, e2, e3, e4, f1, f2, f3, f4]
  next h => rfl

theorem lowerStr_idem (s : String) : lowerStr (lowerStr s) = lowerStr s := by
  unfold lowerStr
  apply congrArg String.mk
  rw [List.map_map]
  apply List.map_congr_left
  intro a _
  exact char_toLower_idem a

/- ### Substring and trimming facts -/

theorem hasSub_iff_occurs (l pat : List Char) : hasSub l pat = true ↔ pat <:+: l := by
  induction l with
  | nil =>
    simp [hasSub, List.isEmpty_iff]
  | cons c cs ih =>
    simp only [hasSub, Bool.or_eq_true, List.isPrefixOf_iff_prefix, ih]
    rw [List.infix_cons_iff]

/-- An occurrence of a pattern whose first character is not dropped survives
`dropWhile`, and conversely. -/
theorem infix_dropWhile_iff (p : Char → Bool) (a : Char) (pr l : List Char)
    (ha : p a = false) : (a :: pr) <:+: l.dropWhile p ↔ (a :: pr) <:+: l := by
  constructor
  · intro h
    exact h.trans (List.dropWhile_suffix p).isInfix
  · rintro ⟨s, t, hst⟩
    subst hst
    induction s with
    | nil =>
      simp only [List.nil_append, List.cons_append]
      rw [List.dropWhile_cons_of_neg (by simp [ha])]
      exact ⟨[], t, by simp⟩
    | cons c s' ihs =>
      simp only [List.cons_append] at ihs ⊢
      by_cases hc : p c
      · rw [List.dropWhile_cons_of_pos hc]
        exact ihs
      · rw [List.dropWhile_cons_of_neg hc]
        exact ⟨c :: s', t, by simp⟩

theorem trueChars_eq : trueChars = ['t', 'r', 'u', 'e'] := by decide

/-- Stripping surrounding whitespace neither creates nor destroys an
occurrence of `"true"`. -/
theorem trueChars_infix_trimL (l : List Char) :
    (trueChars <:+: trimL l) ↔ (trueChars <:+: l) := by
  have htp : trueChars = (['e', 'u', 'r', 't'] : List Char).reverse := by decide
  have htp2 : (['e', 'u', 'r', 't'] : List Char) = trueChars.reverse := by decide
  have e3 : (trueChars <:+: trimL l) ↔
      ((['e', 'u', 'r', 't'] : List Char) <:+: ((l.dropWhile wsp).reverse.dropWhile wsp)) := by
    unfold trimL
    rw [htp]
    exact List.reverse_infix
  have e1 : ((['e', 'u', 'r', 't'] : List Char) <:+: ((l.dropWhile wsp).reverse.dropWhile wsp)) ↔
      ((['e', 'u', 'r', 't'] : List Char) <:+: (l.dropWhile wsp).reverse) :=
    infix_dropWhile_iff wsp 'e' ['u', 'r', 't'] _ (by decide)
  have e4 : ((['e', 'u', 'r', 't'] : List Char) <:+: (l.dropWhile wsp).reverse) ↔
      (trueChars <:+: l.dropWhile wsp) := by
    rw [htp2]
    exact List.reverse_infix
  have e2 : (trueChars <:+: l.dropWhile wsp) ↔ (trueChars <:+: l) := by
    rw [trueChars_eq]
    exact infix_dropWhile_iff wsp 't' ['r', 'u', 'e'] l (by decide)
  exact ((e3.trans e1).trans e4).trans e2

/-- Lowercasing commutes with whitespace-stripping. -/
theorem trimL_map_toLower (l : List Char) :
    (trimL l).map Char.toLower = trimL (l.map Char.toLower) := by
  unfold trimL
  have hdw : ∀ m : List Char,
      (m.map Char.toLower).dropWhile wsp = (m.dropWhile wsp).map Char.toLower := by
    intro m
    rw [List.dropWhile_map]
    have : (wsp ∘ Char.toLower) = wsp := by
      funext c
      exact wsp_toLower c
    rw [this]
  rw [List.map_reverse, ← hdw, List.map_reverse, ← hdw]

/- ### Facts about the label presence test and label mutations -/

theorem labelPresent_iff (l : String) (labels : List String) :
    labelPresent l labels = true ↔ ∃ x, x ∈ labels ∧ l = lowerStr x := by
  simp only [labelPresent, decide_eq_true_eq, List.mem_map]
  constructor
  · rintro ⟨x, hx, hlx⟩
    exact ⟨x, hx, hlx.symm⟩
  · rintro ⟨x, hx, hlx⟩
    exact ⟨x, hx, hlx.symm⟩

theorem mem_removeLabel (x l : String) (labels : List String) :
    x ∈ removeLabel l labels ↔ x ∈ labels ∧ lowerStr x ≠ lowerStr l := by
  simp [removeLabel, List.mem_filter]

theorem labelPresent_append_single (m l : String) (labels : List String) :
    labelPresent m (labels ++ [l]) = true ↔
      (labelPresent m labels = true ∨ m = lowerStr l) := by
  simp [labelPresent, List.mem_append]

theorem labelPresent_removeLabel (m l : String) (labels : List String) :
    labelPresent m (removeLabel l labels) = true ↔
      (labelPresent m labels = true ∧ m ≠ lowerStr l) := by
  simp only [labelPresent, decide_eq_true_eq, List.mem_map]
  constructor
  · rintro ⟨x, hx, hlx⟩
    rw [mem_removeLabel] at hx
    refine ⟨⟨x, hx.1, hlx⟩, ?_⟩
    intro hEq
    exact hx.2 (hlx.trans hEq)
  · rintro ⟨⟨x, hx, hlx⟩, hne⟩
    refine ⟨x, ?_, hlx⟩
    rw [mem_removeLabel]
    refine ⟨hx, ?_⟩
    intro hEq
    exact hne (hlx.symm.trans hEq)

theorem foldl_removeLabel_mem (rs : List String) (L : List String) (x : String) :
    x ∈ rs.foldl (fun acc m => removeLabel m acc) L ↔
      x ∈ L ∧ ∀ r ∈ rs, lowerStr x ≠ lowerStr r := by
  induction rs generalizing L with
  | nil => simp
  | cons r rs ih =>
    rw [List.foldl_cons, ih, mem_removeLabel]
    simp only [List.mem_cons]
    constructor
    · rintro ⟨⟨hL, hr⟩, hall⟩
      refine ⟨hL, ?_⟩
      rintro r' (rfl | hr')
      · exact hr
      · exact hall r' hr'
    · rintro ⟨hL, hall⟩
      exact ⟨⟨hL, hall r (Or.inl rfl)⟩, fun r' hr' => hall r' (Or.inr hr')⟩

theorem resetItem_eq (managed L : List String) :
    resetItem managed L =
      (managed.filter (fun m => labelPresent m L)).foldl
        (fun acc m => removeLabel m acc) L := by
  rw [resetItem, resetMuts, List.foldl_map]
  rfl

theorem labelPresent_resetItem (managed L : List String) (m : String)
    (hm : m ∈ managed) : labelPresent m (resetItem managed L) = false := by
  rw [resetItem_eq]
  by_cases hp : labelPresent m L = true
  · have hmem : m ∈ managed.filter (fun m => labelPresent m L) :=
      List.mem_filter.mpr ⟨hm, hp⟩
    rw [labelPresent, decide_eq_false_iff_not]
    intro hmm
    obtain ⟨x, hx, hlx⟩ := List.mem_map.mp hmm
    obtain ⟨_, hall⟩ := (foldl_removeLabel_mem _ L x).mp hx
    have hxm : lowerStr x ≠ lowerStr m := hall m hmem
    apply hxm
    rw [hlx]
    rw [← hlx, lowerStr_idem, hlx]
  · rw [labelPresent, decide_eq_false_iff_not]
    intro hmm
    obtain ⟨x, hx, hlx⟩ := List.mem_map.mp hmm
    obtain ⟨hxL, _⟩ := (foldl_removeLabel_mem _ L x).mp hx
    exact hp (labelPresent_iff m L |>.mpr ⟨x, hxL, hlx.symm⟩)

/-- When neither managed label is present, the pass appends exactly one of the
two configured labels. -/
theorem runItem_cases (cfg : TaggerConfig) (item : Item) (trakt : List String)
    (ai : Bool) (hc : hasConflict cfg item = false)
    (had : alreadyDecided cfg item = false) :
    runItem cfg item trakt ai = item.labels ++ [cfg.add_label] ∨
      runItem cfg item trakt ai = item.labels ++ [cfg.reject_label] := by
  by_cases ht : traktMatch trakt item = true
  · left
    simp [runItem, runMuts, decideItem, hc, had, ht, applyMut]
  · by_cases hk : keywordReject cfg item = true
    · right
      simp [runItem, runMuts, decideItem, hc, had, ht, hk, applyMut]
    · cases ai
      · right
        simp [runItem, runMuts, decideItem, hc, had, ht, hk, applyMut]
      · left
        simp [runItem, runMuts, decideItem, hc, had, ht, hk, applyMut]

/- ### Claim theorems -/

/-- C1: for every item and tagger config, the decision applies exactly five
rules in strict order, first match wins and is terminal: (1) conflict yields
`RemoveAdd add_label`; (2) either label present yields `Skip`; (3) a reference
identifier intersection yields `AddPositive`; (4) the keyword pre-filter may
yield `AddNegative`; (5) otherwise the AI classifier decides.  No later rule
runs once an earlier rule matched (in particular rules 1-4 are independent of
the AI answer, which is universally quantified). -/
theorem decideItem_rule_order (cfg : TaggerConfig) (item : Item)
    (trakt : List String) (ai : Bool) :
    (hasConflict cfg item = true →
      decideItem cfg item trakt ai = DecisionAct.RemoveAdd cfg.add_label) ∧
    (hasConflict cfg item = false → alreadyDecided cfg item = true →
      decideItem cfg item trakt ai = DecisionAct.Skip) ∧
    (hasConflict cfg item = false → alreadyDecided cfg item = false →
      traktMatch trakt item = true →
      decideItem cfg item trakt ai = DecisionAct.AddPositive) ∧
    (hasConflict cfg item = false → alreadyDecided cfg item = false →
      traktMatch trakt item = false → keywordReject cfg item = true →
      decideItem cfg item trakt ai = DecisionAct.AddNegative) ∧
    (hasConflict cfg item = false → alreadyDecided cfg item = false →
      traktMatch trakt item = false → keywordReject cfg item = false →
      decideItem cfg item trakt ai =
        (if ai then DecisionAct.AddPositive else DecisionAct.AddNegative)) := by
  refine ⟨?_, ?_, ?_, ?_, ?_⟩ <;>
    intros <;> simp [decideItem, *]

/-- Witness for C1 at a concrete conflicted item. -/
theorem decideItem_rule_order_witness :
    decideItem cfgW1 itemW1 [] true = DecisionAct.RemoveAdd "alpha" :=
  (decideItem_rule_order cfgW1 itemW1 [] true).1 (by decide)

/-- C3: for every item with neither managed label present, a non-empty
reference list intersecting the item's identifier set decides `AddPositive`,
for every keyword configuration and independently of the AI answer. -/
theorem trakt_short_circuit (cfg : TaggerConfig) (item : Item)
    (trakt : List String) (ai : Bool)
    (hadd : labelPresent cfg.add_label item.labels = false)
    (hrej : labelPresent cfg.reject_label item.labels = false)
    (hne : trakt ≠ [])
    (hint : ∃ x, x ∈ plexIds item ∧ x ∈ trakt) :
    decideItem cfg item trakt ai = DecisionAct.AddPositive := by
  have hc : hasConflict cfg item = false := by
    simp [hasConflict, hadd, hrej]
  have ha : alreadyDecided cfg item = false := by
    simp [alreadyDecided, hadd, hrej]
  have ht : traktMatch trakt item = true := by
    simp only [traktMatch, decide_eq_true_eq]
    exact ⟨hne, hint⟩
  simp [decideItem, hc, ha, ht]

/-- Witness for C3: a tagger with keywords configured still tags a
reference-matched item positively, with the AI stubbed to `false`. -/
theorem trakt_short_circuit_witness :
    decideItem cfgW3 itemW3 ["tt0123"] false = DecisionAct.AddPositive :=
  trakt_short_circuit cfgW3 itemW3 ["tt0123"] false (by decide) (by decide)
    (by decide) ⟨"tt0123", by decide, by decide⟩

/-- Counterexample to C4 as stated: a tagger not named `"sappy_christmas"`
declares `pre_ai_keywords`, the item reaches step 4 with a keyword count below
the threshold, yet the decision is the AI's `AddPositive`, not `AddNegative`. -/
theorem keyword_gate_counterexample :
    cfgX4.pre_ai_keywords ≠ [] ∧
    keywordMatches cfgX4 itemX4 < cfgX4.pre_ai_keyword_threshold ∧
    hasConflict cfgX4 itemX4 = false ∧
    alreadyDecided cfgX4 itemX4 = false ∧
    traktMatch [] itemX4 = false ∧
    decideItem cfgX4 itemX4 [] true = DecisionAct.AddPositive ∧
    decideItem cfgX4 itemX4 [] true ≠ DecisionAct.AddNegative := by
  decide

/-- C4 amended: for every tagger config named `"sappy_christmas"` that
declares `pre_ai_keywords`, and every item that reaches step 4, a keyword
match count below the threshold decides `AddNegative` without the AI, and
otherwise control falls through to the AI classification. -/
theorem keyword_prefilter_sappy (cfg : TaggerConfig) (item : Item)
    (trakt : List String) (ai : Bool)
    (hname : cfg.name = "sappy_christmas")
    (hkw : cfg.pre_ai_keywords ≠ [])
    (hc : hasConflict cfg item = false)
    (ha : alreadyDecided cfg item = false)
    (ht : traktMatch trakt item = false) :
    (keywordMatches cfg item < cfg.pre_ai_keyword_threshold →
      decideItem cfg item trakt ai = DecisionAct.AddNegative) ∧
    (cfg.pre_ai_keyword_threshold ≤ keywordMatches cfg item →
      decideItem cfg item trakt ai =
        (if ai then DecisionAct.AddPositive else DecisionAct.AddNegative)) := by
  constructor
  · intro hlt
    have hk : keywordReject cfg item = true := by
      simp only [keywordReject, decide_eq_true_eq]
      exact ⟨hname, hkw, hlt⟩
    simp [decideItem, hc, ha, ht, hk]
  · intro hge
    have hk : keywordReject cfg item = false := by
      simp only [keywordReject, decide_eq_false_iff_not]
      rintro ⟨-, -, hlt⟩
      omega
    simp [decideItem, hc, ha, ht, hk]

/-- Witness for C4 amended at the spec's own example: keywords
`["snow", "christmas"]`, threshold 2, one match, so the item is
keyword-rejected without consulting the AI. -/
theorem keyword_prefilter_sappy_witness :
    decideItem cfgW4 itemW4 [] true = DecisionAct.AddNegative :=
  (keyword_prefilter_sappy cfgW4 itemW4 [] true (by decide) (by decide)
    (by decide) (by decide) (by decide)).1 (by decide)

/-- C5: the AI classifier adapter never raises: it returns `true` exactly when
the endpoint produced a textual response containing `"true"`
case-insensitively; a transport error, timeout, malformed response, or a
response without a `response` field yields `false`. -/
theorem ai_decision_contains_true (r : AiResponse) :
    get_ai_decision r = true ↔
      ∃ s, r = AiResponse.text s ∧
        hasSub (s.data.map Char.toLower) trueChars = true := by
  cases r with
  | failure => simp [get_ai_decision]
  | noField =>
    have hval : get_ai_decision AiResponse.noField = false := by decide
    simp [hval]
  | text s =>
    simp only [get_ai_decision]
    constructor
    · intro h
      refine ⟨s, rfl, ?_⟩
      rw [hasSub_iff_occurs] at h ⊢
      rw [trimL_map_toLower] at h
      exact (trueChars_infix_trimL _).mp h
    · rintro ⟨s', hs', h⟩
      injection hs' with hss
      subst hss
      rw [hasSub_iff_occurs] at h ⊢
      rw [trimL_map_toLower]
      exact (trueChars_infix_trimL _).mpr h

/-- Counterexample to C2 as stated: with a mixed-case configured `add_label`,
an item carrying exactly both configured labels is neither repaired nor
skipped correctly — the run leaves both labels in place. -/
theorem conflict_case_counterexample :
    cfgX2.add_label ∈ itemX2.labels ∧
    cfgX2.reject_label ∈ itemX2.labels ∧
    decideItem cfgX2 itemX2 [] false = DecisionAct.Skip ∧
    decideItem cfgX2 itemX2 [] true = DecisionAct.Skip ∧
    runItem cfgX2 itemX2 [] false = itemX2.labels ∧
    cfgX2.add_label ∈ runItem cfgX2 itemX2 [] false ∧
    cfgX2.reject_label ∈ runItem cfgX2 itemX2 [] false := by
  decide

/-- C2 amended: for every (item, tagger) pair whose configured labels are
lowercase and distinct, after a completed pass the item's labels contain at
most one of the two managed labels; if both are present at the start the pass
removes `add_label`, leaves `reject_label` present, and performs no further
classification. -/
theorem conflict_invariant_lowercase (cfg : TaggerConfig) (item : Item)
    (trakt : List String) (ai : Bool)
    (hA : lowerStr cfg.add_label = cfg.add_label)
    (hR : lowerStr cfg.reject_label = cfg.reject_label)
    (hne : cfg.add_label ≠ cfg.reject_label) :
    (¬ (labelPresent cfg.add_label (runItem cfg item trakt ai) = true ∧
        labelPresent cfg.reject_label (runItem cfg item trakt ai) = true)) ∧
    (labelPresent cfg.add_label item.labels = true →
      labelPresent cfg.reject_label item.labels = true →
        decideItem cfg item trakt ai = DecisionAct.RemoveAdd cfg.add_label ∧
        labelPresent cfg.reject_label (runItem cfg item trakt ai) = true ∧
        labelPresent cfg.add_label (runItem cfg item trakt ai) = false) := by
  cases hc : hasConflict cfg item with
  | true =>
    have hboth : labelPresent cfg.reject_label item.labels = true ∧
        labelPresent cfg.add_label item.labels = true := by
      simpa [hasConflict] using hc
    have hd : decideItem cfg item trakt ai = DecisionAct.RemoveAdd cfg.add_label := by
      simp [decideItem, hc]
    have hrun : runItem cfg item trakt ai = removeLabel cfg.add_label item.labels := by
      simp [runItem, runMuts, hd, applyMut]
    have haddF : labelPresent cfg.add_label (runItem cfg item trakt ai) = false := by
      rw [hrun, Bool.eq_false_iff]
      intro h
      rw [labelPresent_removeLabel, hA] at h
      exact h.2 rfl
    have hrejT : labelPresent cfg.reject_label (runItem cfg item trakt ai) = true := by
      rw [hrun, labelPresent_removeLabel, hA]
      exact ⟨hboth.1, fun hEq => hne hEq.symm⟩
    constructor
    · rintro ⟨h1, -⟩
      rw [haddF] at h1
      exact Bool.false_ne_true h1
    · intro _ _
      exact ⟨hd, hrejT, haddF⟩
  | false =>
    cases had : alreadyDecided cfg item with
    | true =>
      have hd : decideItem cfg item trakt ai = DecisionAct.Skip := by
        simp [decideItem, hc, had]
      have hrun : runItem cfg item trakt ai = item.labels := by
        simp [runItem, runMuts, hd]
      constructor
      · rintro ⟨h1, h2⟩
        rw [hrun] at h1 h2
        have hcontra : hasConflict cfg item = true := by
          simp [hasConflict, h1, h2]
        rw [hc] at hcontra
        exact Bool.false_ne_true hcontra
      · intro h1 h2
        exfalso
        have hcontra : hasConflict cfg item = true := by
          simp [hasConflict, h1, h2]
        rw [hc] at hcontra
        exact Bool.false_ne_true hcontra
    | false =>
      have hnp : labelPresent cfg.add_label item.labels = false ∧
          labelPresent cfg.reject_label item.labels = false := by
        simpa [alreadyDecided] using had
      have hvac : ¬ (labelPresent cfg.add_label item.labels = true) := by
        rw [hnp.1]
        exact Bool.false_ne_true
      rcases runItem_cases cfg item trakt ai hc had with hrun | hrun
      · constructor
        · rintro ⟨-, h2⟩
          rw [hrun, labelPresent_append_single] at h2
          rcases h2 with h2 | h2
          · rw [hnp.2] at h2
            exact Bool.false_ne_true h2
          · rw [hA] at h2
            exact hne h2.symm
        · intro h1 _
          exact absurd h1 hvac
      · constructor
        · rintro ⟨h1, -⟩
          rw [hrun, labelPresent_append_single] at h1
          rcases h1 with h1 | h1
          · rw [hnp.1] at h1
            exact Bool.false_ne_true h1
          · rw [hR] at h1
            exact hne h1
        · intro h1 _
          exact absurd h1 hvac

/-- Witness for C2 amended at the rm_standup labels. -/
theorem conflict_invariant_lowercase_witness :
    decideItem cfgW2 itemW2 [] false = DecisionAct.RemoveAdd "standup" ∧
    labelPresent "verified_not_standup" (runItem cfgW2 itemW2 [] false) = true ∧
    labelPresent "standup" (runItem cfgW2 itemW2 [] false) = false :=
  (conflict_invariant_lowercase cfgW2 itemW2 [] false (by decide) (by decide)
    (by decide)).2 (by decide) (by decide)

/-- Counterexample to C8 as stated: a mixed-case managed label is in the
union and literally present on the item, yet reset leaves it in place. -/
theorem reset_case_counterexample :
    "Standup" ∈ managedLabels cfgsX8 ∧
    "Standup" ∈ (["Standup"] : List String) ∧
    resetItem (managedLabels cfgsX8) ["Standup"] = ["Standup"] := by
  decide

/-- C8 amended: reset computes the union over all configs of
`{add_label, reject_label}`; for every lowercase managed label no item label
case-insensitively equal to it survives, and running reset twice — per item
and over the whole library — produces the same label state as running it
once. -/
theorem reset_removes_and_idempotent (cfgs : List TaggerConfig)
    (labels : List String) (lib : List Item) :
    (∀ m, m ∈ managedLabels cfgs → lowerStr m = m →
      ∀ x, x ∈ resetItem (managedLabels cfgs) labels → lowerStr x ≠ m) ∧
    resetItem (managedLabels cfgs) (resetItem (managedLabels cfgs) labels) =
      resetItem (managedLabels cfgs) labels ∧
    resetLibrary cfgs (resetLibrary cfgs lib) = resetLibrary cfgs lib := by
  have hidem : ∀ L : List String,
      resetItem (managedLabels cfgs) (resetItem (managedLabels cfgs) L) =
        resetItem (managedLabels cfgs) L := by
    intro L
    conv_lhs => rw [resetItem_eq]
    have hfil : (managedLabels cfgs).filter
        (fun m => labelPresent m (resetItem (managedLabels cfgs) L)) = [] := by
      rw [List.filter_eq_nil_iff]
      intro m hm
      rw [labelPresent_resetItem (managedLabels cfgs) L m hm]
      simp
    rw [hfil]
    rfl
  refine ⟨?_, hidem labels, ?_⟩
  · intro m hm hlow x hx hEq
    have hp := labelPresent_resetItem (managedLabels cfgs) labels m hm
    have hT : labelPresent m (resetItem (managedLabels cfgs) labels) = true :=
      (labelPresent_iff _ _).mpr ⟨x, hx, hEq.symm⟩
    rw [hp] at hT
    exact Bool.false_ne_true hT
  · unfold resetLibrary
    rw [List.map_map]
    apply List.map_congr_left
    intro it _
    simp [Function.comp, hidem it.labels]

/-- Witness for C8 amended: a present lowercase managed label is gone after
reset, and a second reset changes nothing. -/
theorem reset_removes_and_idempotent_witness :
    lowerStr "other" ≠ "managed_a" ∧
    resetItem (managedLabels cfgsW8)
        (resetItem (managedLabels cfgsW8) ["Managed_A", "other"]) =
      resetItem (managedLabels cfgsW8) ["Managed_A", "other"] :=
  ⟨(reset_removes_and_idempotent cfgsW8 ["Managed_A", "other"] []).1 "managed_a"
      (by decide) (by decide) "other" (by decide),
   (reset_removes_and_idempotent cfgsW8 ["Managed_A", "other"] []).2.1⟩

/-- Counterexample to C9 as stated: the presence test is not symmetric in
case — a configured label differing from an item label only in case is
missed by conflict/skip detection and by reset removal. -/
theorem labelPresent_case_counterexample :
    lowerStr "Standup" = lowerStr "standup" ∧
    ("Standup" : String) ≠ "standup" ∧
    labelPresent "Standup" ["standup"] = false ∧
    labelPresent "standup" ["Standup"] = true ∧
    decideItem cfgF9 itemF9 [] true = DecisionAct.AddPositive ∧
    resetItem ["Standup"] ["standup"] = ["standup"] := by
  decide

/-- C9 amended: the presence test lowercases the item's labels and compares
the configured label verbatim — it succeeds exactly when the configured label
equals the lowercase form of some item label; full case-insensitivity holds
exactly when the configured label is itself lowercase. -/
theorem labelPresent_characterization (l : String) (labels : List String) :
    (labelPresent l labels = true ↔ ∃ x, x ∈ labels ∧ l = lowerStr x) ∧
    (lowerStr l = l →
      (labelPresent l labels = true ↔
        ∃ x, x ∈ labels ∧ lowerStr x = lowerStr l)) := by
  refine ⟨labelPresent_iff l labels, ?_⟩
  intro hl
  rw [labelPresent_iff]
  constructor
  · rintro ⟨x, hx, hlx⟩
    refine ⟨x, hx, ?_⟩
    rw [hl]
    exact hlx.symm
  · rintro ⟨x, hx, hlx⟩
    refine ⟨x, hx, ?_⟩
    rw [hlx, hl]

/-- Witness for C9 amended: a lowercase configured label matches an item
label of any case. -/
theorem labelPresent_characterization_witness :
    labelPresent "standup" ["StandUp"] = true :=
  ((labelPresent_characterization "standup" ["StandUp"]).2 (by decide)).mpr
    ⟨"StandUp", by decide, by decide⟩

/-- C10: one tagger pass issues at most one mutation per item, and only for
that tagger's `add_label` or `reject_label` (the only removal being the
conflicting `add_label`); reset issues removals only for labels in the
managed-label union. -/
theorem mutation_frame (cfg : TaggerConfig) (item : Item) (trakt : List String)
    (ai : Bool) (managed : List String) (labels : List String) :
    (runMuts cfg item trakt ai).length ≤ 1 ∧
    (∀ m, m ∈ runMuts cfg item trakt ai →
      m = Mut.addLab cfg.add_label ∨ m = Mut.addLab cfg.reject_label ∨
        m = Mut.removeLab cfg.add_label) ∧
    (∀ m, m ∈ resetMuts managed labels →
      ∃ l, l ∈ managed ∧ m = Mut.removeLab l) := by
  have hcases : runMuts cfg item trakt ai = [] ∨
      runMuts cfg item trakt ai = [Mut.removeLab cfg.add_label] ∨
      runMuts cfg item trakt ai = [Mut.addLab cfg.add_label] ∨
      runMuts cfg item trakt ai = [Mut.addLab cfg.reject_label] := by
    cases hc : hasConflict cfg item with
    | true =>
      right; left
      simp [runMuts, decideItem, hc]
    | false =>
      cases had : alreadyDecided cfg item with
      | true =>
        left
        simp [runMuts, decideItem, hc, had]
      | false =>
        cases ht : traktMatch trakt item with
        | true =>
          right; right; left
          simp [runMuts, decideItem, hc, had, ht]
        | false =>
          cases hk : keywordReject cfg item with
          | true =>
            right; right; right
            simp [runMuts, decideItem, hc, had, ht, hk]
          | false =>
            cases ai with
            | true =>
              right; right; left
              simp [runMuts, decideItem, hc, had, ht, hk]
            | false =>
              right; right; right
              simp [runMuts, decideItem, hc, had, ht, hk]
  refine ⟨?_, ?_, ?_⟩
  · rcases hcases with h | h | h | h <;> simp [h]
  · intro m hm
    rcases hcases with h | h | h | h <;> rw [h] at hm <;>
      simp only [List.mem_singleton, List.not_mem_nil] at hm
    · exact Or.inr (Or.inr hm)
    · exact Or.inl hm
    · exact Or.inr (Or.inl hm)
  · intro m hm
    simp only [resetMuts, List.mem_map, List.mem_filter] at hm
    obtain ⟨l, ⟨hlm, -⟩, rfl⟩ := hm
    exact ⟨l, hlm, rfl⟩

/-- Witness for C10 at a concrete unlabeled item. -/
theorem mutation_frame_witness :
    (runMuts cfgW10 itemW10 [] true).length ≤ 1 ∧
    (runMuts cfgW10 itemW10 [] true = [Mut.addLab "pos_label"]) :=
  ⟨(mutation_frame cfgW10 itemW10 [] true ["x"] ["y"]).1, by decide⟩

/-- Every failing attempt makes the retry loop fall through to the next one;
with no success in range it returns the empty list. -/
theorem fetchLoop_empty_of_fail (attempts : Nat → FetchResult) :
    ∀ n i, (∀ j, j < n → isFetchSuccess (attempts (i + j)) = false) →
      fetchLoop attempts i n = [] := by
  intro n
  induction n with
  | zero =>
    intro i _
    rfl
  | succ n ih =>
    intro i h
    have h0 : isFetchSuccess (attempts i) = false := by
      simpa using h 0 (Nat.succ_pos n)
    cases hA : attempts i with
    | success ids =>
      rw [hA] at h0
      simp [isFetchSuccess] at h0
    | http429 k =>
      simp only [fetchLoop, hA]
      exact ih (i + 1) (fun j hj => by
        have hh := h (j + 1) (Nat.succ_lt_succ hj)
        rw [show i + (j + 1) = i + 1 + j from by omega] at hh
        exact hh)
    | httpError =>
      simp only [fetchLoop, hA]
      exact ih (i + 1) (fun j hj => by
        have hh := h (j + 1) (Nat.succ_lt_succ hj)
        rw [show i + (j + 1) = i + 1 + j from by omega] at hh
        exact hh)
    | netError =>
      simp only [fetchLoop, hA]
      exact ih (i + 1) (fun j hj => by
        have hh := h (j + 1) (Nat.succ_lt_succ hj)
        rw [show i + (j + 1) = i + 1 + j from by omega] at hh
        exact hh)

/-- C6: with a cache miss and a configured client id, exhausting the retry
budget of 3 attempts by failures of any kind (429 rate limiting, other HTTP
errors, network errors) returns the empty identifier set — no error
escapes. -/
theorem fetch_retry_exhaustion (c : String) (entry : Option CacheEntry)
    (now lifetime : Int) (attempts : Nat → FetchResult)
    (hmiss : load_trakt_cache entry now lifetime = none)
    (hfail : ∀ i, i < trakt_retries → isFetchSuccess (attempts i) = false) :
    fetch_trakt_list_movies (some c) entry now lifetime attempts = ([], true) := by
  simp only [fetch_trakt_list_movies]
  rw [hmiss]
  rw [fetchLoop_empty_of_fail attempts trakt_retries 0
    (fun j hj => by simpa using hfail j hj)]

/-- Witness for C6: three consecutive 429 responses yield the empty set. -/
theorem fetch_retry_exhaustion_witness :
    fetch_trakt_list_movies (some "cid") none 0 24
      (fun _ => FetchResult.http429 5) = ([], true) :=
  fetch_retry_exhaustion "cid" none 0 24 (fun _ => FetchResult.http429 5)
    rfl (fun _ _ => rfl)

/-- C7: with a persisted entry, the cached identifiers are returned without
any network attempt exactly when `now - timestamp < lifetimeHours`; at or past
the lifetime (including exact equality) the entry is treated as absent and a
remote refetch is triggered. -/
theorem cache_freshness (c : String) (e : CacheEntry) (now lifetime : Int)
    (attempts : Nat → FetchResult) :
    (fetch_trakt_list_movies (some c) (some e) now lifetime attempts =
        (e.identifiers, false) ↔ now - e.timestamp < lifetime) ∧
    (lifetime ≤ now - e.timestamp →
      (fetch_trakt_list_movies (some c) (some e) now lifetime attempts).2 = true) := by
  by_cases h : now - e.timestamp < lifetime
  · have hl : load_trakt_cache (some e) now lifetime = some e.identifiers := by
      simp [load_trakt_cache, h]
    constructor
    · simp [fetch_trakt_list_movies, hl, h]
    · intro h'
      omega
  · have hl : load_trakt_cache (some e) now lifetime = none := by
      simp [load_trakt_cache, h]
    constructor
    · simp [fetch_trakt_list_movies, hl, h]
    · intro _
      simp [fetch_trakt_list_movies, hl]

/-- Witness for C7: a 25-hour-old entry with a 24-hour lifetime triggers a
refetch, and a 5-hour-old one is served from cache without network use. -/
theorem cache_freshness_witness :
    (fetch_trakt_list_movies (some "cid") (some ⟨0, ["tt1"]⟩) 25 24
        (fun _ => FetchResult.netError)).2 = true ∧
    fetch_trakt_list_movies (some "cid") (some ⟨0, ["tt1"]⟩) 5 24
        (fun _ => FetchResult.netError) = (["tt1"], false) :=
  ⟨(cache_freshness "cid" ⟨0, ["tt1"]⟩ 25 24 (fun _ => FetchResult.netError)).2
      (by decide),
   (cache_freshness "cid" ⟨0, ["tt1"]⟩ 5 24 (fun _ => FetchResult.netError)).1.mpr
      (by decide)⟩

end PlexTagger
